import Mathlib

/-!
Shallow embedding of the ptrstream reverse-DNS scanner (Go, `main` package).

The embedding models the resolver pool (`Config.getNextServer`,
`Config.updateDNSServers`, `loadDNSServers`), the lookup engine
(`lookupWithRetry` and its answer classification), the per-address worker
logic (`worker`), the NDJSON sink (`writeNDJSON`) and the shard-spec parser
(`parseShardArg`).  Network effects (the DNS `Exchange` call, the HTTP fetch
of the default resolver list) and the wall clock are passed in explicitly as
oracles, so every definition is executable.  Machine integers that matter
(TTL: uint32, DNS rcode, shard indices) carry no arithmetic here, so they are
modelled as `Nat`/`Int` directly.
-/

namespace PtrStream

/-- Go `strings.TrimSuffix s suf`: drop `suf` from the end when present,
otherwise return `s` unchanged.  (Implemented over the character list so the
kernel can evaluate it; the byte/char distinction is irrelevant for the
ASCII suffixes the program uses.) -/
def trimSuffix (s suf : String) : String :=
  if suf.data.isSuffixOf s.data then
    ⟨s.data.take (s.data.length - suf.data.length)⟩
  else s

/-- Go `strings.TrimSpace`: strip whitespace from both ends. -/
def goTrimSpace (s : String) : String :=
  ⟨((s.data.dropWhile Char.isWhitespace).reverse.dropWhile
      Char.isWhitespace).reverse⟩

/-- The per-name cleanup the worker applies before picking the canonical PTR
name: `strings.TrimSpace(strings.TrimSuffix(name, "."))`. -/
def cleanName (s : String) : String :=
  goTrimSpace (trimSuffix s ".")

/-- Normalisation applied in `main` (and inside `updateDNSServers`) to every
endpoint: `host` becomes `host:53` when no `:` is present. -/
def normalizeServers (ss : List String) : List String :=
  ss.map (fun s => if s.data.contains ':' then s else s ++ ":53")

/-- Line processing shared by `fetchDefaultResolvers` and the file branch of
`loadDNSServers`: trim each line, keep the non-empty ones. -/
def nonEmptyTrimmedLines (lines : List String) : List String :=
  (lines.map goTrimSpace).filter (fun s => s != "")

/-- Model of `loadDNSServers` on a named file (the `dnsFile != ""` branch), with the
file contents given as its list of lines.  I/O errors of `os.Open` and the
scanner are outside the model. -/
def loadDNSServers (lines : List String) : Except String (List String) :=
  let servers := nonEmptyTrimmedLines lines
  if servers.length = 0 then Except.error "no DNS servers found in file"
  else Except.ok servers

/-- Outcome of one `fetchDefaultResolvers` HTTP call: either a transport
error or the fetched body as a list of raw lines (the function itself trims
and filters them, which `nonEmptyTrimmedLines` reproduces). -/
inductive FetchResult where
  | ok (lines : List String)
  | err (msg : String)
deriving Repr, DecidableEq

/-- The mutable fields of `Config` that the resolver pool uses:
the endpoint list, the rotation cursor and the staleness clock
(`lastDNSUpdate`, in nanoseconds like Go `time.Time` differences). -/
structure ConfigState where
  dnsServers : List String
  serverIndex : Nat
  lastDNSUpdate : Nat
deriving Repr, DecidableEq

/-- Go `24 * time.Hour` in nanoseconds. -/
def twentyFourHours : Nat := 24 * 60 * 60 * 1000000000

/-- Model of `Config.updateDNSServers`, with the current time and the result of the
HTTP fetch passed in.  Returns the new state, the returned `error`
(`none` = nil) and whether `fetchDefaultResolvers` was actually invoked.
Note the function runs on every `getNextServer` call and carries no memory
of whether the original list came from a file. -/
def updateDNSServers (now : Nat) (fetch : FetchResult) (c : ConfigState) :
    ConfigState × Option String × Bool :=
  if now - c.lastDNSUpdate < twentyFourHours then (c, none, false)
  else
    match fetch with
    | FetchResult.err m => (c, some m, true)
    | FetchResult.ok lines =>
      let resolvers := nonEmptyTrimmedLines lines
      if resolvers.length = 0 then (c, some "no resolvers found in update", true)
      else
        ({ dnsServers := normalizeServers resolvers
           serverIndex := 0
           lastDNSUpdate := now }, none, true)

/-- Model of `Config.getNextServer`: run the staleness update, then hand out the
endpoint under the cursor and advance the cursor modulo the list length.
Returns `""` when the pool is empty (the caller treats that as terminal).
The `Bool` records whether the update performed a remote fetch. -/
def getNextServer (now : Nat) (fetch : FetchResult) (c : ConfigState) :
    ConfigState × String × Bool :=
  let u := updateDNSServers now fetch c
  let c1 := u.1
  let fetched := u.2.2
  if c1.dnsServers.length = 0 then (c1, "", fetched)
  else
    let server := c1.dnsServers.getD c1.serverIndex ""
    ({ c1 with serverIndex := (c1.serverIndex + 1) % c1.dnsServers.length },
     server, fetched)

/-- A resource record in a DNS answer section, as far as `lookupWithRetry`
inspects it: the `switch rr := ans.(type)` distinguishes `*dns.PTR`,
`*dns.CNAME`, and ignores everything else. -/
inductive RR where
  | ptrRec (name : String) (ttl : Nat)
  | cnameRec (name : String) (target : String) (ttl : Nat)
  | otherRec
deriving Repr, DecidableEq

/-- The Go `DNSResponse` struct.  `TTL` is a uint32 in the source; no
arithmetic is performed on it, so `Nat` is a faithful carrier. -/
structure DNSResponse where
  names : List String := []
  server : String := ""
  recordType : String := ""
  target : String := ""
  ttl : Nat := 0
deriving Repr, DecidableEq

/-- The zero value `DNSResponse{}` that Go returns on failure paths. -/
def DNSResponse.zero : DNSResponse := {}

/-- Accumulator of the `for _, ans := range r.Answer` loop: the local
variables `names`, `ttl`, `isCNAME`, `target`. -/
structure AnswerAcc where
  names : List String
  ttl : Nat
  isCNAME : Bool
  target : String
deriving Repr, DecidableEq

/-- The answer-section loop of `lookupWithRetry` (lines 200-211): PTR records
append their name, CNAME records set the flag and overwrite the target, both
overwrite `ttl`; other record types are skipped. -/
def scanAnswer : List RR → AnswerAcc → AnswerAcc
  | [], acc => acc
  | RR.ptrRec n t :: rest, acc =>
      scanAnswer rest { acc with names := acc.names ++ [n], ttl := t }
  | RR.cnameRec n tg t :: rest, acc =>
      scanAnswer rest
        { names := acc.names ++ [n], ttl := t, isCNAME := true, target := tg }
  | RR.otherRec :: rest, acc => scanAnswer rest acc

/-- The initial accumulator (Go zero values of the loop locals). -/
def AnswerAcc.init : AnswerAcc := ⟨[], 0, false, ""⟩

/-- Computes `server[:strings.Index(server, ":")]` when a colon is present, else the
whole string: the host part logged as `Server`. -/
def logServerOf (server : String) : String :=
  ⟨server.data.takeWhile (fun c => c ≠ ':')⟩

/-- Classification of a successful (`RcodeSuccess`) reply's answer section
(lines 194-230): `some response` when at least one PTR or CNAME name was
collected, `none` when the attempt falls through to
`lastErr = "no PTR records found"`. -/
def classifyAnswer (answer : List RR) (server : String) : Option DNSResponse :=
  if answer.length > 0 then
    let acc := scanAnswer answer AnswerAcc.init
    if acc.names.length > 0 then
      if acc.isCNAME then
        some { names := acc.names, server := logServerOf server,
               recordType := "CNAME", target := trimSuffix acc.target ".",
               ttl := acc.ttl }
      else
        some { names := acc.names, server := logServerOf server,
               recordType := "PTR", ttl := acc.ttl }
    else none
  else none

/-- Outcome of one `c.Exchange(m, server)` call: a transport/timeout error,
or a reply with its rcode and answer section. -/
inductive ExchangeResult where
  | err (msg : String)
  | resp (rcode : Nat) (answer : List RR)
deriving Repr

/-- The oracles one `lookupWithRetry` call runs against: the current time,
the outcome a remote resolver-list fetch would have, the result of
`dns.ReverseAddr(ip)` for this address, and the outcome of the `Exchange`
issued on attempt number `i` (0-based). -/
structure LookupEnv where
  now : Nat
  fetch : FetchResult
  arpa : Except String String
  net : Nat → ExchangeResult

/-- What one `lookupWithRetry` call produced: the returned pair
`(DNSResponse, error)`, the final config state, the servers on which a DNS
`Exchange` was actually issued (in order), and how many remote list fetches
`getNextServer` triggered along the way. -/
structure LookupResult where
  resp : DNSResponse
  err : Option String
  cfg : ConfigState
  queried : List String
  fetches : Nat
deriving Repr

/-- The retry loop of `lookupWithRetry` (lines 157-233), with `i` the Go
loop index and `remaining` how many iterations are left. -/
def lookupLoop (env : LookupEnv) : Nat → Nat → Option String → ConfigState →
    LookupResult
  | _, 0, lastErr, c => ⟨DNSResponse.zero, lastErr, c, [], 0⟩
  | i, remaining + 1, _lastErr, c =>
    match getNextServer env.now env.fetch c with
    | (c1, server, fetched) =>
      let f : Nat := if fetched then 1 else 0
      if server = "" then
        ⟨DNSResponse.zero, some "no DNS servers available", c1, [], f⟩
      else
        match env.arpa with
        | Except.error e => ⟨DNSResponse.zero, some e, c1, [], f⟩
        | Except.ok _ =>
          match env.net i with
          | ExchangeResult.err m =>
            let rest := lookupLoop env (i + 1) remaining (some m) c1
            ⟨rest.resp, rest.err, rest.cfg, server :: rest.queried,
             f + rest.fetches⟩
          | ExchangeResult.resp rcode answer =>
            if rcode ≠ 0 then
              let rest := lookupLoop env (i + 1) remaining
                (some ("DNS query failed with code: " ++ toString rcode)) c1
              ⟨rest.resp, rest.err, rest.cfg, server :: rest.queried,
               f + rest.fetches⟩
            else
              match classifyAnswer answer server with
              | some r => ⟨r, none, c1, [server], f⟩
              | none =>
                let rest := lookupLoop env (i + 1) remaining
                  (some "no PTR records found") c1
                ⟨rest.resp, rest.err, rest.cfg, server :: rest.queried,
                 f + rest.fetches⟩

/-- Model of `lookupWithRetry(ip, cfg)`.  `retries` is a Go `int`; the loop
`for i := 0; i < cfg.retries; i++` runs `max retries 0` times, which is
`retries.toNat`. -/
def lookupWithRetry (env : LookupEnv) (retries : Int) (c : ConfigState) :
    LookupResult :=
  lookupLoop env 0 retries.toNat none c

/-- The record `writeNDJSON` marshals: field order and json tags as in the
Go struct literal (lines 724-740). -/
structure OutputRecord where
  timestamp : String
  ipAddr : String
  dnsServer : String
  ptrRecord : String
  recordType : String
  target : String
  ttl : Nat
deriving Repr, DecidableEq

/-- The key/value pairs `encoding/json` emits for an `OutputRecord`: every
field is always present except `target`, whose tag is
`json:"target,omitempty"`, so it is omitted exactly when the string is
empty. -/
def recordFields (r : OutputRecord) : List (String × String) :=
  [("timestamp", r.timestamp), ("ip_addr", r.ipAddr),
   ("dns_server", r.dnsServer), ("ptr_record", r.ptrRecord),
   ("record_type", r.recordType)] ++
  (if r.target = "" then [] else [("target", r.target)]) ++
  [("ttl", toString r.ttl)]

/-- Model of `writeNDJSON` with the sink state made explicit: `none` models a nil
`cfg.outputFile` (no `-o` flag), `some lines` the list of records appended
so far.  Marshalling of this struct never fails, so the `err == nil` guard
always takes the write branch. -/
def writeNDJSON (out : Option (List OutputRecord)) (r : OutputRecord) :
    Option (List OutputRecord) :=
  match out with
  | none => none
  | some written => some (written ++ [r])

/-- Counter deltas one worker iteration applies to `Stats` via the atomic
`increment*` methods. -/
structure StatsDelta where
  processed : Nat
  success : Nat
  failed : Nat
  cnames : Nat
deriving Repr, DecidableEq

def StatsDelta.add (a b : StatsDelta) : StatsDelta :=
  ⟨a.processed + b.processed, a.success + b.success, a.failed + b.failed,
   a.cnames + b.cnames⟩

/-- Which branch of the worker body handled the address: the `err != nil`
check, the `len(response.Names) == 0` check, or the success path. -/
inductive WorkerBranch where
  | viaError
  | viaEmpty
  | success
deriving Repr, DecidableEq

/-- The branch the worker takes on a lookup outcome `(response, err)`. -/
def workerBranch (resp : DNSResponse) (err : Option String) : WorkerBranch :=
  if err.isSome then WorkerBranch.viaError
  else if resp.names.isEmpty then WorkerBranch.viaEmpty
  else WorkerBranch.success

/-- The canonical-name selection of the worker (lines 376-382): the first
name whose cleaned form is non-empty, else `""`. -/
def firstNonEmptyClean : List String → String
  | [] => ""
  | n :: rest =>
    let c := cleanName n
    if c ≠ "" then c else firstNonEmptyClean rest

/-- One worker iteration on one address (lines 323-427), reduced to its
counter and sink effects: given the lookup outcome, return the stats deltas
and the output record passed to `writeNDJSON`, if any.  `stats.increment()`
runs unconditionally; exactly one of failed/success is bumped; the CNAME
counter and the sink write happen only after the `ptr == ""` early
`continue`. -/
def workerStep (ts ip : String) (resp : DNSResponse) (err : Option String) :
    StatsDelta × Option OutputRecord :=
  match workerBranch resp err with
  | WorkerBranch.viaError => (⟨1, 0, 1, 0⟩, none)
  | WorkerBranch.viaEmpty => (⟨1, 0, 1, 0⟩, none)
  | WorkerBranch.success =>
    let ptr := firstNonEmptyClean resp.names
    if ptr = "" then (⟨1, 1, 0, 0⟩, none)
    else
      (⟨1, 1, 0, if resp.recordType = "CNAME" then 1 else 0⟩,
       some ⟨ts, ip, resp.server, ptr, resp.recordType, resp.target, resp.ttl⟩)

/-- One delivered address as the worker sees it: its timestamp and IP plus
the lookup outcome. -/
structure WorkerInput where
  ts : String
  ip : String
  resp : DNSResponse
  err : Option String

/-- Folding the worker over a list of delivered addresses: total counter
deltas and the sequence of records handed to the sink.  Atomic counter
increments commute, so the totals at pipeline completion equal this fold
regardless of worker interleaving. -/
def runWorker : List WorkerInput → StatsDelta × List OutputRecord
  | [] => (⟨0, 0, 0, 0⟩, [])
  | x :: rest =>
    let st := workerStep x.ts x.ip x.resp x.err
    let acc := runWorker rest
    (StatsDelta.add st.1 acc.1, st.2.toList ++ acc.2)

/-- The worker's lookup dispatch (lines 328-335): with a non-empty pool it
calls `lookupWithRetry`; otherwise it falls back to `net.LookupAddr`, whose
result is the `fallback` oracle.  In the fallback branch the Go code
shadows `err` with `:=`, so the outer error stays nil even when the OS
lookup fails and the zero response is kept. -/
def workerResolve (env : LookupEnv) (retries : Int) (c : ConfigState)
    (fallback : Except String (List String)) : DNSResponse × Option String :=
  if c.dnsServers.length > 0 then
    let r := lookupWithRetry env retries c
    (r.resp, r.err)
  else
    match fallback with
    | Except.ok names => ({ names := names, recordType := "PTR" }, none)
    | Except.error _ => (DNSResponse.zero, none)

/-- Decimal digits to a number, most significant first. -/
def digitsToNat (l : List Char) : Nat :=
  l.foldl (fun n c => n * 10 + (c.toNat - Char.toNat '0')) 0

/-- A non-empty all-digit character list parsed as a `Nat`. -/
def listToNat? (l : List Char) : Option Nat :=
  if l ≠ [] ∧ l.all Char.isDigit then some (digitsToNat l) else none

/-- Go `strconv.Atoi`, restricted to the well-within-range integers the
shard parser meets: an optional sign followed by at least one digit.
(The int64-overflow failure mode of `Atoi` is out of scope.) -/
def goAtoi (s : String) : Option Int :=
  match s.data with
  | '-' :: rest => (listToNat? rest).map (fun n => -(n : Int))
  | '+' :: rest => (listToNat? rest).map (fun n => (n : Int))
  | l => (listToNat? l).map (fun n => (n : Int))

/-- Go `strings.Split` on a one-character separator. -/
def splitOnChar (c : Char) : List Char → List (List Char)
  | [] => [[]]
  | x :: xs =>
    let r := splitOnChar c xs
    if x = c then [] :: r
    else
      match r with
      | [] => [[x]]
      | y :: ys => (x :: y) :: ys

/-- Go `strings.Split(s, sep)` for the single-character separators the
program uses. -/
def goSplit (s : String) (c : Char) : List String :=
  (splitOnChar c s.data).map (fun l => (⟨l⟩ : String))

/-- Model of `parseShardArg` (lines 430-455).  The `%v` detail of the two Atoi error
messages is elided; the guard is Go's
`shardNum < 1 || shardNum > totalShards` verbatim. -/
def parseShardArg (shard : String) : Except String (Int × Int) :=
  if shard = "" then Except.ok (1, 1)
  else
    let parts := goSplit shard '/'
    if parts.length ≠ 2 then
      Except.error "invalid shard format (expected n/total)"
    else
      match goAtoi (parts.getD 0 ""), goAtoi (parts.getD 1 "") with
      | none, _ => Except.error "invalid shard number"
      | some _, none => Except.error "invalid total shards"
      | some shardNum, some totalShards =>
        if shardNum < 1 ∨ shardNum > totalShards then
          Except.error "shard number must be between 1 and total shards"
        else Except.ok (shardNum, totalShards)

/-- The resolver-pool state `main` builds when `-dns file` is given: servers
from the file, normalised, cursor 0, staleness clock set to startup time
(lines 511-531). -/
def initialConfigFromFile (lines : List String) (startTime : Nat) :
    Except String ConfigState :=
  (loadDNSServers lines).map fun ss =>
    { dnsServers := normalizeServers ss
      serverIndex := 0
      lastDNSUpdate := startTime }

/-- Whether a record is a `*dns.PTR`. -/
def RR.isPtr : RR → Bool
  | RR.ptrRec _ _ => true
  | _ => false

/-- Whether a record is a `*dns.CNAME`. -/
def RR.isCname : RR → Bool
  | RR.cnameRec _ _ _ => true
  | _ => false

/-- The answer section contains at least one PTR record. -/
def hasPTR (answer : List RR) : Bool := answer.any RR.isPtr

/-- The answer section contains at least one CNAME record. -/
def hasCNAME (answer : List RR) : Bool := answer.any RR.isCname

/-- The names the classification loop collects, in answer order: PTR names
and CNAME owner names. -/
def collectNames : List RR → List String
  | [] => []
  | RR.ptrRec n _ :: rest => n :: collectNames rest
  | RR.cnameRec n _ _ :: rest => n :: collectNames rest
  | RR.otherRec :: rest => collectNames rest

/-- The CNAME targets of an answer section, in order (the loop keeps the
last one). -/
def cnameTargets : List RR → List String
  | [] => []
  | RR.cnameRec _ tg _ :: rest => tg :: cnameTargets rest
  | _ :: rest => cnameTargets rest

/-- Whether one `Exchange` outcome makes the attempt fail (transport error,
non-zero rcode, or no PTR/CNAME name in the answer). -/
def attemptFails : ExchangeResult → Bool
  | ExchangeResult.err _ => true
  | ExchangeResult.resp rcode answer =>
    decide (rcode ≠ 0) || (collectNames answer).isEmpty

/-- The `lastErr` message a failing attempt leaves behind. -/
def attemptReason : ExchangeResult → String
  | ExchangeResult.err m => m
  | ExchangeResult.resp rcode _ =>
    if rcode ≠ 0 then "DNS query failed with code: " ++ toString rcode
    else "no PTR records found"

/-- The invariant every pool the program builds satisfies: non-empty, and no
endpoint is the empty string (both the file loader and the remote fetcher
drop empty lines). -/
def goodPool (c : ConfigState) : Prop :=
  c.dnsServers ≠ [] ∧ "" ∉ c.dnsServers

/-! ### Lemmas about the answer-classification loop -/

lemma getLast_getD_cons {α : Type} (a d : α) (l : List α) :
    (a :: l).getLast?.getD d = l.getLast?.getD a := by
  cases l with
  | nil => simp
  | cons b bs =>
    rcases h : (b :: bs).getLast? with _ | x
    · simp [List.getLast?_eq_none_iff] at h
    · simp [List.getLast?_cons_cons, h]

lemma scanAnswer_names (l : List RR) (acc : AnswerAcc) :
    (scanAnswer l acc).names = acc.names ++ collectNames l := by
  induction l generalizing acc with
  | nil => simp [scanAnswer, collectNames]
  | cons hd rest ih =>
    cases hd with
    | ptrRec n t => simp [scanAnswer, collectNames, ih]
    | cnameRec n tg t => simp [scanAnswer, collectNames, ih]
    | otherRec => simp [scanAnswer, collectNames, ih]

lemma scanAnswer_isCNAME (l : List RR) (acc : AnswerAcc) :
    (scanAnswer l acc).isCNAME = (acc.isCNAME || hasCNAME l) := by
  induction l generalizing acc with
  | nil => simp [scanAnswer, hasCNAME]
  | cons hd rest ih =>
    cases hd with
    | ptrRec n t => simp [scanAnswer, hasCNAME, RR.isCname, ih]
    | cnameRec n tg t => simp [scanAnswer, hasCNAME, RR.isCname, ih]
    | otherRec => simp [scanAnswer, hasCNAME, RR.isCname, ih]

lemma scanAnswer_target (l : List RR) (acc : AnswerAcc) :
    (scanAnswer l acc).target = (cnameTargets l).getLastD acc.target := by
  induction l generalizing acc with
  | nil => simp [scanAnswer, cnameTargets]
  | cons hd rest ih =>
    cases hd with
    | ptrRec n t => simp [scanAnswer, cnameTargets, ih]
    | cnameRec n tg t => simp [scanAnswer, cnameTargets, ih, getLast_getD_cons]
    | otherRec => simp [scanAnswer, cnameTargets, ih]

lemma collectNames_ne_nil_of_hasPTR {l : List RR} (h : hasPTR l = true) :
    collectNames l ≠ [] := by
  induction l with
  | nil => simp [hasPTR] at h
  | cons hd rest ih =>
    cases hd with
    | ptrRec n t => simp [collectNames]
    | cnameRec n tg t => simp [collectNames]
    | otherRec =>
      simp only [hasPTR, List.any_cons, RR.isPtr, Bool.false_or] at h
      simpa [collectNames] using ih h

lemma collectNames_ne_nil_of_hasCNAME {l : List RR} (h : hasCNAME l = true) :
    collectNames l ≠ [] := by
  induction l with
  | nil => simp [hasCNAME] at h
  | cons hd rest ih =>
    cases hd with
    | ptrRec n t => simp [collectNames]
    | cnameRec n tg t => simp [collectNames]
    | otherRec =>
      simp only [hasCNAME, List.any_cons, RR.isCname, Bool.false_or] at h
      simpa [collectNames] using ih h

lemma classifyAnswer_eq_none_iff (answer : List RR) (server : String) :
    classifyAnswer answer server = none ↔ collectNames answer = [] := by
  cases answer with
  | nil => simp [classifyAnswer, collectNames]
  | cons hd rest =>
    simp only [classifyAnswer, List.length_cons, scanAnswer_names,
      AnswerAcc.init]
    constructor
    · intro h
      by_contra hne
      have hlen : 0 < ([] ++ collectNames (hd :: rest)).length := by
        simpa [List.length_pos] using hne
      simp [hlen] at h
      split at h <;> simp_all
    · intro h
      simp [h]

/-! ### C1: answer classification -/

/-- C1 (amended).  With at least one PTR record and no CNAME record the
outcome is `Success` with record type PTR.  The outcome has record type
CNAME exactly when a CNAME record is present — also when PTR records are
present alongside it — and then the target is the last CNAME target with a
trailing dot stripped, which can be empty (target `"."`). -/
theorem classifyAnswer_record_types (answer : List RR) (server : String) :
    (hasPTR answer = true → hasCNAME answer = false →
      (classifyAnswer answer server).map DNSResponse.recordType = some "PTR") ∧
    (hasCNAME answer = true →
      (classifyAnswer answer server).map DNSResponse.recordType =
        some "CNAME" ∧
      (classifyAnswer answer server).map DNSResponse.target =
        some (trimSuffix ((cnameTargets answer).getLastD "") ".")) := by
  constructor
  · intro hp hc
    have hne : answer ≠ [] := by
      rintro rfl
      simp [hasPTR] at hp
    have hnames := collectNames_ne_nil_of_hasPTR hp
    simp [classifyAnswer, List.length_pos.mpr hne, scanAnswer_names,
      scanAnswer_isCNAME, AnswerAcc.init, hc, List.length_pos.mpr hnames]
  · intro hc
    have hne : answer ≠ [] := by
      rintro rfl
      simp [hasCNAME] at hc
    have hnames := collectNames_ne_nil_of_hasCNAME hc
    simp [classifyAnswer, List.length_pos.mpr hne, scanAnswer_names,
      scanAnswer_isCNAME, scanAnswer_target, AnswerAcc.init, hc,
      List.length_pos.mpr hnames, List.getLastD]

/-- C1 witness: a PTR-only answer classifies as PTR; a CNAME answer
classifies as CNAME with the stripped target. -/
theorem classifyAnswer_record_types_witness :
    (classifyAnswer [RR.ptrRec "host.example.com." 3600] "8.8.8.8:53").map
      DNSResponse.recordType = some "PTR" ∧
    (classifyAnswer [RR.cnameRec "4.3.2.1.in-addr.arpa." "alias.example.com."
      300] "8.8.8.8:53").map DNSResponse.target = some "alias.example.com" :=
  ⟨(classifyAnswer_record_types [RR.ptrRec "host.example.com." 3600]
      "8.8.8.8:53").1 (by decide) (by decide),
   ((classifyAnswer_record_types [RR.cnameRec "4.3.2.1.in-addr.arpa."
      "alias.example.com." 300] "8.8.8.8:53").2 (by decide)).2⟩

/-- C1 counterexample.  First input: the answer contains a PTR record, yet
the outcome's record type is CNAME (a CNAME record is also present), so
"contains a PTR record implies recordType=PTR" fails.  Second input: a
CNAME-only answer whose target is the root `"."` yields an empty `target`,
so "the target ... is non-empty" fails. -/
theorem classifyAnswer_claim_counterexample :
    hasPTR [RR.ptrRec "host.example.com." 3600,
      RR.cnameRec "4.3.2.1.in-addr.arpa." "alias.example.com." 300] = true ∧
    (classifyAnswer [RR.ptrRec "host.example.com." 3600,
      RR.cnameRec "4.3.2.1.in-addr.arpa." "alias.example.com." 300]
      "8.8.8.8:53").map DNSResponse.recordType = some "CNAME" ∧
    ("CNAME" : String) ≠ "PTR" ∧
    hasCNAME [RR.cnameRec "4.3.2.1.in-addr.arpa." "." 300] = true ∧
    hasPTR [RR.cnameRec "4.3.2.1.in-addr.arpa." "." 300] = false ∧
    (classifyAnswer [RR.cnameRec "4.3.2.1.in-addr.arpa." "." 300]
      "8.8.8.8:53").map DNSResponse.target = some "" := by
  refine ⟨by decide, by decide, by decide, by decide, by decide, by decide⟩

/-! ### Lemmas about the resolver pool -/

lemma nonEmptyTrimmedLines_ne_empty {lines : List String} :
    ∀ s ∈ nonEmptyTrimmedLines lines, s ≠ "" := by
  intro s hs
  simp only [nonEmptyTrimmedLines, List.mem_filter, bne_iff_ne, ne_eq] at hs
  exact hs.2

lemma mem_normalizeServers_ne_empty {rs : List String}
    (hrs : ∀ s ∈ rs, s ≠ "") : ∀ t ∈ normalizeServers rs, t ≠ "" := by
  intro t ht
  simp only [normalizeServers, List.mem_map] at ht
  obtain ⟨s, hs, rfl⟩ := ht
  split
  · exact hrs s hs
  · intro hcontra
    have hlen := congrArg String.length hcontra
    rw [String.length_append] at hlen
    have h53 : (":53" : String).length = 3 := rfl
    have h0 : ("" : String).length = 0 := rfl
    omega

lemma updateDNSServers_fst_cases (now : Nat) (fetch : FetchResult)
    (c : ConfigState) :
    (updateDNSServers now fetch c).1 = c ∨
    ((updateDNSServers now fetch c).1.serverIndex = 0 ∧
      goodPool (updateDNSServers now fetch c).1) := by
  unfold updateDNSServers
  split
  · exact Or.inl rfl
  · match fetch with
    | FetchResult.err m => exact Or.inl rfl
    | FetchResult.ok lines =>
      simp only
      split
      · exact Or.inl rfl
      · rename_i hlen
        refine Or.inr ⟨rfl, ?_, ?_⟩
        · simp only [ne_eq, ← List.length_eq_zero]
          simpa [normalizeServers] using hlen
        · intro hmem
          exact mem_normalizeServers_ne_empty
            (fun s hs => nonEmptyTrimmedLines_ne_empty s hs) "" hmem rfl

lemma updateDNSServers_fresh {now : Nat} {c : ConfigState}
    (fetch : FetchResult) (h : now - c.lastDNSUpdate < twentyFourHours) :
    updateDNSServers now fetch c = (c, none, false) := by
  unfold updateDNSServers
  rw [if_pos h]

lemma getNextServer_fresh {now : Nat} {c : ConfigState} (fetch : FetchResult)
    (h : now - c.lastDNSUpdate < twentyFourHours)
    (hpos : 0 < c.dnsServers.length) :
    getNextServer now fetch c =
      ({ c with serverIndex := (c.serverIndex + 1) % c.dnsServers.length },
        c.dnsServers.getD c.serverIndex "", false) := by
  simp only [getNextServer, updateDNSServers_fresh fetch h]
  rw [if_neg (by omega)]

lemma getNextServer_fresh_empty {now : Nat} {c : ConfigState}
    (fetch : FetchResult) (h : now - c.lastDNSUpdate < twentyFourHours)
    (hpool : c.dnsServers = []) :
    getNextServer now fetch c = (c, "", false) := by
  simp only [getNextServer, updateDNSServers_fresh fetch h]
  rw [if_pos (by simp [hpool])]

lemma goodPool_getD_ne_empty {c : ConfigState} (h : goodPool c)
    {i : Nat} (hi : i < c.dnsServers.length) :
    c.dnsServers.getD i "" ≠ "" := by
  have hget : c.dnsServers.getD i "" = c.dnsServers.get ⟨i, hi⟩ := by
    simp [List.getD, List.get?_eq_get hi, List.getElem?_eq_getElem hi]
  rw [hget]
  exact fun hc => h.2 (hc ▸ List.get_mem c.dnsServers _ _)

lemma getNextServer_spec (now : Nat) {c : ConfigState} (fetch : FetchResult)
    (h : goodPool c) (hidx : c.serverIndex < c.dnsServers.length) :
    goodPool (getNextServer now fetch c).1 ∧
    (getNextServer now fetch c).1.serverIndex <
      (getNextServer now fetch c).1.dnsServers.length ∧
    (getNextServer now fetch c).2.1 ≠ "" := by
  rcases updateDNSServers_fst_cases now fetch c with hc | ⟨h0, hgood⟩
  · have hpos : 0 < c.dnsServers.length :=
      List.length_pos.mpr h.1
    simp only [getNextServer, hc]
    rw [if_neg (by omega)]
    refine ⟨⟨h.1, h.2⟩, ?_, ?_⟩
    · exact Nat.mod_lt _ hpos
    · exact goodPool_getD_ne_empty h hidx
  · have hpos : 0 < (updateDNSServers now fetch c).1.dnsServers.length :=
      List.length_pos.mpr hgood.1
    simp only [getNextServer]
    rw [if_neg (by omega)]
    refine ⟨⟨hgood.1, hgood.2⟩, ?_, ?_⟩
    · exact Nat.mod_lt _ hpos
    · exact goodPool_getD_ne_empty hgood (h0 ▸ hpos)

/-! ### Lemmas about the retry loop -/

lemma lookupLoop_queried_length (env : LookupEnv) :
    ∀ remaining i lastErr c,
      (lookupLoop env i remaining lastErr c).queried.length ≤ remaining := by
  intro remaining
  induction remaining with
  | zero => intro i lastErr c; simp [lookupLoop]
  | succ n ih =>
    intro i lastErr c
    simp only [lookupLoop]
    split
    · simp
    · split
      · simp
      · split
        · simpa using Nat.succ_le_succ (ih (i + 1) _ _)
        · split
          · simpa using Nat.succ_le_succ (ih (i + 1) _ _)
          · split
            · simp
            · simpa using Nat.succ_le_succ (ih (i + 1) _ _)

lemma lookupLoop_zero (env : LookupEnv) (i : Nat) (lastErr : Option String)
    (c : ConfigState) :
    lookupLoop env i 0 lastErr c = ⟨DNSResponse.zero, lastErr, c, [], 0⟩ :=
  rfl

lemma lookupLoop_step_noServer {env : LookupEnv} {c c1 : ConfigState}
    {fetched : Bool} (i n : Nat) (lastErr : Option String)
    (hg : getNextServer env.now env.fetch c = (c1, "", fetched)) :
    lookupLoop env i (n + 1) lastErr c =
      ⟨DNSResponse.zero, some "no DNS servers available", c1, [],
        if fetched then 1 else 0⟩ := by
  simp [lookupLoop, hg]

lemma lookupLoop_step_arpaErr {env : LookupEnv} {c c1 : ConfigState}
    {server : String} {fetched : Bool} {e : String} (i n : Nat)
    (lastErr : Option String)
    (hg : getNextServer env.now env.fetch c = (c1, server, fetched))
    (hs : server ≠ "") (ha : env.arpa = Except.error e) :
    lookupLoop env i (n + 1) lastErr c =
      ⟨DNSResponse.zero, some e, c1, [], if fetched then 1 else 0⟩ := by
  simp [lookupLoop, hg, hs, ha]

lemma lookupLoop_step_err {env : LookupEnv} {c c1 : ConfigState}
    {server : String} {fetched : Bool} {a m : String} (i n : Nat)
    (lastErr : Option String)
    (hg : getNextServer env.now env.fetch c = (c1, server, fetched))
    (hs : server ≠ "") (ha : env.arpa = Except.ok a)
    (hnet : env.net i = ExchangeResult.err m) :
    lookupLoop env i (n + 1) lastErr c =
      ⟨(lookupLoop env (i + 1) n (some m) c1).resp,
        (lookupLoop env (i + 1) n (some m) c1).err,
        (lookupLoop env (i + 1) n (some m) c1).cfg,
        server :: (lookupLoop env (i + 1) n (some m) c1).queried,
        (if fetched then 1 else 0) +
          (lookupLoop env (i + 1) n (some m) c1).fetches⟩ := by
  simp [lookupLoop, hg, hs, ha, hnet]

lemma lookupLoop_step_rcode {env : LookupEnv} {c c1 : ConfigState}
    {server : String} {fetched : Bool} {a : String} {rcode : Nat}
    {answer : List RR} (i n : Nat) (lastErr : Option String)
    (hg : getNextServer env.now env.fetch c = (c1, server, fetched))
    (hs : server ≠ "") (ha : env.arpa = Except.ok a)
    (hnet : env.net i = ExchangeResult.resp rcode answer)
    (hrc : rcode ≠ 0) :
    lookupLoop env i (n + 1) lastErr c =
      ⟨(lookupLoop env (i + 1) n
          (some ("DNS query failed with code: " ++ toString rcode)) c1).resp,
        (lookupLoop env (i + 1) n
          (some ("DNS query failed with code: " ++ toString rcode)) c1).err,
        (lookupLoop env (i + 1) n
          (some ("DNS query failed with code: " ++ toString rcode)) c1).cfg,
        server :: (lookupLoop env (i + 1) n
          (some ("DNS query failed with code: " ++ toString rcode)) c1).queried,
        (if fetched then 1 else 0) + (lookupLoop env (i + 1) n
          (some ("DNS query failed with code: " ++ toString rcode))
          c1).fetches⟩ := by
  simp [lookupLoop, hg, hs, ha, hnet, hrc]

lemma lookupLoop_step_noRecords {env : LookupEnv} {c c1 : ConfigState}
    {server : String} {fetched : Bool} {a : String} {answer : List RR}
    (i n : Nat) (lastErr : Option String)
    (hg : getNextServer env.now env.fetch c = (c1, server, fetched))
    (hs : server ≠ "") (ha : env.arpa = Except.ok a)
    (hnet : env.net i = ExchangeResult.resp 0 answer)
    (hcl : classifyAnswer answer server = none) :
    lookupLoop env i (n + 1) lastErr c =
      ⟨(lookupLoop env (i + 1) n (some "no PTR records found") c1).resp,
        (lookupLoop env (i + 1) n (some "no PTR records found") c1).err,
        (lookupLoop env (i + 1) n (some "no PTR records found") c1).cfg,
        server ::
          (lookupLoop env (i + 1) n (some "no PTR records found") c1).queried,
        (if fetched then 1 else 0) + (lookupLoop env (i + 1) n
          (some "no PTR records found") c1).fetches⟩ := by
  simp [lookupLoop, hg, hs, ha, hnet, hcl]

lemma lookupLoop_step_success {env : LookupEnv} {c c1 : ConfigState}
    {server : String} {fetched : Bool} {a : String} {answer : List RR}
    {r : DNSResponse} (i n : Nat) (lastErr : Option String)
    (hg : getNextServer env.now env.fetch c = (c1, server, fetched))
    (hs : server ≠ "") (ha : env.arpa = Except.ok a)
    (hnet : env.net i = ExchangeResult.resp 0 answer)
    (hcl : classifyAnswer answer server = some r) :
    lookupLoop env i (n + 1) lastErr c =
      ⟨r, none, c1, [server], if fetched then 1 else 0⟩ := by
  simp [lookupLoop, hg, hs, ha, hnet, hcl]

lemma lookupLoop_all_fail (env : LookupEnv) (a : String)
    (ha : env.arpa = Except.ok a) :
    ∀ remaining i lastErr c, goodPool c →
      c.serverIndex < c.dnsServers.length →
      (∀ j, i ≤ j → j < i + remaining + 1 → attemptFails (env.net j) = true) →
      (lookupLoop env i (remaining + 1) lastErr c).err =
        some (attemptReason (env.net (i + remaining))) ∧
      (lookupLoop env i (remaining + 1) lastErr c).resp = DNSResponse.zero := by
  intro remaining
  induction remaining with
  | zero =>
    intro i lastErr c hgood hidx hfail
    have hspec := getNextServer_spec env.now env.fetch hgood hidx
    have hfi := hfail i (le_refl i) (by omega)
    rcases hg : getNextServer env.now env.fetch c with ⟨c1, server, fetched⟩
    rw [hg] at hspec
    dsimp only at hspec
    rcases hnet : env.net i with m | ⟨rcode, answer⟩
    · rw [lookupLoop_step_err i 0 lastErr hg hspec.2.2 ha hnet,
        lookupLoop_zero]
      simp [attemptReason, hnet]
    · by_cases hrc : rcode = 0
      · subst hrc
        have hempty : collectNames answer = [] := by
          rw [hnet] at hfi
          simpa [attemptFails, List.isEmpty_iff] using hfi
        have hnone : classifyAnswer answer server = none :=
          (classifyAnswer_eq_none_iff _ _).mpr hempty
        rw [lookupLoop_step_noRecords i 0 lastErr hg hspec.2.2 ha hnet hnone,
          lookupLoop_zero]
        simp [attemptReason, hnet]
      · rw [lookupLoop_step_rcode i 0 lastErr hg hspec.2.2 ha hnet hrc,
          lookupLoop_zero]
        simp [attemptReason, hnet, hrc]
  | succ k ih =>
    intro i lastErr c hgood hidx hfail
    have hspec := getNextServer_spec env.now env.fetch hgood hidx
    have hfi := hfail i (le_refl i) (by omega)
    rcases hg : getNextServer env.now env.fetch c with ⟨c1, server, fetched⟩
    rw [hg] at hspec
    dsimp only at hspec
    have htail : ∀ m, (lookupLoop env (i + 1) (k + 1) (some m) c1).err =
          some (attemptReason (env.net (i + (k + 1)))) ∧
        (lookupLoop env (i + 1) (k + 1) (some m) c1).resp =
          DNSResponse.zero := by
      intro m
      have h2 := ih (i + 1) (some m) c1 hspec.1 hspec.2.1
        (fun j hj1 hj2 => hfail j (by omega) (by omega))
      have harith : i + 1 + k = i + (k + 1) := by omega
      rw [harith] at h2
      exact h2
    rcases hnet : env.net i with m | ⟨rcode, answer⟩
    · rw [lookupLoop_step_err i (k + 1) lastErr hg hspec.2.2 ha hnet]
      exact ⟨(htail m).1, (htail m).2⟩
    · by_cases hrc : rcode = 0
      · subst hrc
        have hempty : collectNames answer = [] := by
          rw [hnet] at hfi
          simpa [attemptFails, List.isEmpty_iff] using hfi
        have hnone : classifyAnswer answer server = none :=
          (classifyAnswer_eq_none_iff _ _).mpr hempty
        rw [lookupLoop_step_noRecords i (k + 1) lastErr hg hspec.2.2 ha hnet
          hnone]
        exact ⟨(htail "no PTR records found").1,
          (htail "no PTR records found").2⟩
      · rw [lookupLoop_step_rcode i (k + 1) lastErr hg hspec.2.2 ha hnet hrc]
        exact ⟨(htail ("DNS query failed with code: " ++ toString rcode)).1,
          (htail ("DNS query failed with code: " ++ toString rcode)).2⟩

lemma getD_eq_get {α : Type} (l : List α) (d : α) {i : Nat}
    (h : i < l.length) : l.getD i d = l.get ⟨i, h⟩ := by
  simp [List.getD, List.get?_eq_get h, List.getElem?_eq_getElem h]

lemma succ_mod_ne {idx len : Nat} (h1 : idx < len) (h2 : 2 ≤ len) :
    (idx + 1) % len ≠ idx := by
  rcases Nat.lt_or_ge (idx + 1) len with h | h
  · rw [Nat.mod_eq_of_lt h]
    omega
  · have hlen : idx + 1 = len := by omega
    rw [hlen, Nat.mod_self]
    omega

/-! ### C2: attempt bound and last-failure propagation -/

/-- C2.  One `lookupWithRetry` call issues at most `retries` DNS queries;
and when the pool satisfies the program invariant, the address reverses
correctly and every attempt fails, the returned error is the reason of the
last failed attempt (and the response is the zero value). -/
theorem lookupWithRetry_retries_and_last_reason (env : LookupEnv)
    (retries : Int) (c : ConfigState) :
    (lookupWithRetry env retries c).queried.length ≤ retries.toNat ∧
    (goodPool c → c.serverIndex < c.dnsServers.length →
      (∃ a, env.arpa = Except.ok a) → 1 ≤ retries →
      (∀ j, j < retries.toNat → attemptFails (env.net j) = true) →
      (lookupWithRetry env retries c).err =
        some (attemptReason (env.net (retries.toNat - 1))) ∧
      (lookupWithRetry env retries c).resp = DNSResponse.zero) := by
  constructor
  · exact lookupLoop_queried_length env retries.toNat 0 none c
  · rintro hgood hidx ⟨a, ha⟩ hr hfail
    obtain ⟨rm, hrm⟩ : ∃ rm, retries.toNat = rm + 1 :=
      ⟨retries.toNat - 1, by omega⟩
    rw [lookupWithRetry, hrm]
    have h := lookupLoop_all_fail env a ha rm 0 none c hgood hidx
      (fun j hj1 hj2 => hfail j (by omega))
    have harith : 0 + rm = rm + 1 - 1 := by omega
    rw [harith] at h
    exact h

/-- C2 witness: two failing attempts over a two-endpoint pool return the
last transport error, and never more than two queries are issued. -/
theorem lookupWithRetry_retries_witness :
    (lookupWithRetry ⟨0, FetchResult.err "offline",
        Except.ok "4.3.2.1.in-addr.arpa.",
        fun _ => ExchangeResult.err "connection timed out"⟩ 2
      ⟨["1.1.1.1:53", "9.9.9.9:53"], 0, 0⟩).queried.length ≤ 2 ∧
    (lookupWithRetry ⟨0, FetchResult.err "offline",
        Except.ok "4.3.2.1.in-addr.arpa.",
        fun _ => ExchangeResult.err "connection timed out"⟩ 2
      ⟨["1.1.1.1:53", "9.9.9.9:53"], 0, 0⟩).err =
      some "connection timed out" :=
  have h := lookupWithRetry_retries_and_last_reason
    ⟨0, FetchResult.err "offline", Except.ok "4.3.2.1.in-addr.arpa.",
      fun _ => ExchangeResult.err "connection timed out"⟩ 2
    ⟨["1.1.1.1:53", "9.9.9.9:53"], 0, 0⟩
  ⟨h.1,
    (h.2 ⟨by decide, by decide⟩ (by decide)
      ⟨"4.3.2.1.in-addr.arpa.", rfl⟩ (by omega) (fun j hj => rfl)).1⟩

/-! ### C3: empty resolver pool -/

/-- C3 (amended).  With an empty pool, a retry budget of at least one, and
the 24-hour refresh not yet due, `lookupWithRetry` returns the zero response
with the error "no DNS servers available" (the code's wording of "no
resolvers available"), issues no DNS query (`queried = []`), performs no
remote fetch (`fetches = 0`), and leaves the config unchanged. -/
theorem lookupWithRetry_no_servers (env : LookupEnv) (retries : Int)
    (c : ConfigState) (hpool : c.dnsServers = [])
    (hfresh : env.now - c.lastDNSUpdate < twentyFourHours)
    (hr : 1 ≤ retries) :
    lookupWithRetry env retries c =
      ⟨DNSResponse.zero, some "no DNS servers available", c, [], 0⟩ := by
  obtain ⟨rm, hrm⟩ : ∃ rm, retries.toNat = rm + 1 :=
    ⟨retries.toNat - 1, by omega⟩
  rw [lookupWithRetry, hrm,
    lookupLoop_step_noServer 0 rm none
      (getNextServer_fresh_empty env.fetch hfresh hpool)]
  simp

/-- C3 counterexample: the failure message produced by the code is
"no DNS servers available", not the "no resolvers available" the claim
quotes. -/
theorem lookupWithRetry_no_servers_counterexample :
    (lookupWithRetry ⟨0, FetchResult.err "offline", Except.ok "a",
        fun _ => ExchangeResult.err "t"⟩ 1 ⟨[], 0, 0⟩).err =
      some "no DNS servers available" ∧
    ("no DNS servers available" : String) ≠ "no resolvers available" := by
  refine ⟨rfl, by decide⟩

/-- C3 witness: a concrete empty-pool call returns the failure immediately,
with no query, no fetch, and an unchanged config. -/
theorem lookupWithRetry_no_servers_witness :
    lookupWithRetry ⟨5, FetchResult.ok ["8.8.8.8"], Except.ok "a",
        fun _ => ExchangeResult.err "t"⟩ 2 ⟨[], 0, 4⟩ =
      ⟨DNSResponse.zero, some "no DNS servers available", ⟨[], 0, 4⟩, [], 0⟩ :=
  lookupWithRetry_no_servers _ 2 _ rfl (by decide) (by omega)

/-! ### C5: resolver rotation across retries -/

lemma lookupLoop_rotation (env : LookupEnv) :
    ∀ remaining i lastErr c,
      env.now - c.lastDNSUpdate < twentyFourHours →
      c.dnsServers.Nodup →
      c.serverIndex < c.dnsServers.length →
      2 ≤ c.dnsServers.length →
      List.Chain' (fun x y => x ≠ y)
        (lookupLoop env i remaining lastErr c).queried ∧
      ∀ x, (lookupLoop env i remaining lastErr c).queried.head? = some x →
        x = c.dnsServers.getD c.serverIndex "" := by
  intro remaining
  induction remaining with
  | zero =>
    intro i lastErr c _ _ _ _
    rw [lookupLoop_zero]
    exact ⟨List.chain'_nil, by simp⟩
  | succ n ih =>
    intro i lastErr c hfresh hnodup hidx hlen
    have hpos : 0 < c.dnsServers.length := by omega
    have hg := getNextServer_fresh env.fetch hfresh hpos
    have hidx1 : (c.serverIndex + 1) % c.dnsServers.length <
        c.dnsServers.length := Nat.mod_lt _ hpos
    have hne : c.dnsServers.getD c.serverIndex "" ≠
        c.dnsServers.getD ((c.serverIndex + 1) % c.dnsServers.length) "" := by
      rw [getD_eq_get _ _ hidx, getD_eq_get _ _ hidx1]
      intro heq
      have hmk := (List.Nodup.get_inj_iff hnodup).mp heq
      have : c.serverIndex = (c.serverIndex + 1) % c.dnsServers.length :=
        congrArg Fin.val hmk
      exact succ_mod_ne hidx hlen this.symm
    have ihc := ih (i + 1)
    by_cases hs : c.dnsServers.getD c.serverIndex "" = ""
    · rw [hs] at hg
      rw [lookupLoop_step_noServer i n lastErr hg]
      exact ⟨by simp, by simp⟩
    · rcases harpa : env.arpa with e | a
      · rw [lookupLoop_step_arpaErr i n lastErr hg hs harpa]
        exact ⟨by simp, by simp⟩
      · have htail : ∀ m : String,
            List.Chain' (fun x y => x ≠ y)
              ((c.dnsServers.getD c.serverIndex "") ::
                (lookupLoop env (i + 1) n (some m)
                  { c with serverIndex :=
                      (c.serverIndex + 1) % c.dnsServers.length }).queried) ∧
            ∀ x, ((c.dnsServers.getD c.serverIndex "") ::
                (lookupLoop env (i + 1) n (some m)
                  { c with serverIndex :=
                      (c.serverIndex + 1) % c.dnsServers.length
                  }).queried).head? = some x →
              x = c.dnsServers.getD c.serverIndex "" := by
          intro m
          obtain ⟨hch, hhd⟩ := ihc (some m)
            { c with serverIndex :=
                (c.serverIndex + 1) % c.dnsServers.length }
            hfresh hnodup hidx1 hlen
          constructor
          · rw [List.chain'_cons']
            refine ⟨?_, hch⟩
            intro y hy
            rw [hhd y hy]
            exact hne
          · intro x hx
            simpa using hx.symm
        rcases hnet : env.net i with m | ⟨rcode, answer⟩
        · rw [lookupLoop_step_err i n lastErr hg hs harpa hnet]
          exact htail m
        · by_cases hrc : rcode = 0
          · subst hrc
            rcases hcl : classifyAnswer answer
                (c.dnsServers.getD c.serverIndex "") with _ | r
            · rw [lookupLoop_step_noRecords i n lastErr hg hs harpa hnet hcl]
              exact htail "no PTR records found"
            · rw [lookupLoop_step_success i n lastErr hg hs harpa hnet hcl]
              refine ⟨by simp, ?_⟩
              intro x hx
              simpa using hx.symm
          · rw [lookupLoop_step_rcode i n lastErr hg hs harpa hnet hrc]
            exact htail ("DNS query failed with code: " ++ toString rcode)

/-- C5 (amended).  When no 24-hour refresh intervenes during the lookup and
the pool entries are pairwise distinct, consecutive attempts never query the
same endpoint — unless the pool has exactly one endpoint (excluded here via
`length ≠ 1`). -/
theorem lookupWithRetry_rotation (env : LookupEnv) (retries : Int)
    (c : ConfigState)
    (hfresh : env.now - c.lastDNSUpdate < twentyFourHours)
    (hnodup : c.dnsServers.Nodup)
    (hidx : c.serverIndex < c.dnsServers.length)
    (hlen : c.dnsServers.length ≠ 1) :
    List.Chain' (fun x y => x ≠ y)
      (lookupWithRetry env retries c).queried := by
  have h2 : 2 ≤ c.dnsServers.length := by omega
  exact (lookupLoop_rotation env retries.toNat 0 none c hfresh hnodup hidx
    h2).1

/-- C5 witness: three failing attempts over the distinct pool
`[1.1.1.1:53, 9.9.9.9:53]` alternate endpoints, so no two consecutive
queries coincide. -/
theorem lookupWithRetry_rotation_witness :
    (lookupWithRetry ⟨0, FetchResult.err "offline", Except.ok "a",
        fun _ => ExchangeResult.err "t"⟩ 3
      ⟨["1.1.1.1:53", "9.9.9.9:53"], 0, 0⟩).queried =
      ["1.1.1.1:53", "9.9.9.9:53", "1.1.1.1:53"] ∧
    List.Chain' (fun x y => x ≠ y)
      (lookupWithRetry ⟨0, FetchResult.err "offline", Except.ok "a",
          fun _ => ExchangeResult.err "t"⟩ 3
        ⟨["1.1.1.1:53", "9.9.9.9:53"], 0, 0⟩).queried :=
  ⟨by decide,
    lookupWithRetry_rotation ⟨0, FetchResult.err "offline", Except.ok "a",
        fun _ => ExchangeResult.err "t"⟩ 3
      ⟨["1.1.1.1:53", "9.9.9.9:53"], 0, 0⟩ (by decide) (by decide) (by decide)
      (by decide)⟩

/-- C5 counterexample: a pool whose two entries are the same endpoint string
makes two consecutive attempts query the same endpoint even though the pool
has two entries, not one. -/
theorem lookupWithRetry_rotation_counterexample :
    (lookupWithRetry ⟨0, FetchResult.err "offline", Except.ok "a",
        fun _ => ExchangeResult.err "i/o timeout"⟩ 2
      ⟨["1.1.1.1:53", "1.1.1.1:53"], 0, 0⟩).queried =
      ["1.1.1.1:53", "1.1.1.1:53"] ∧
    (⟨["1.1.1.1:53", "1.1.1.1:53"], 0, 0⟩ :
      ConfigState).dnsServers.length ≠ 1 := by
  refine ⟨by decide, by decide⟩

/-! ### C6: file-loaded endpoints, normalization and refresh -/

/-- C6 (amended).  Endpoints loaded from a file are normalised (`host`
becomes `host:53` when no port is given) — but the list is not exempt from
auto-refresh: once 24 hours have elapsed since `lastDNSUpdate`, the next
`getNextServer` call whose fetch yields a non-empty resolver list replaces
the current endpoint list — whatever its origin — with the normalised
remote default list. -/
theorem fileServers_normalized_but_refreshed :
    (∀ lines ss s, loadDNSServers lines = Except.ok ss → s ∈ ss →
      s.data.contains ':' = false → (s ++ ":53") ∈ normalizeServers ss) ∧
    (∀ (c : ConfigState) (now : Nat) (fetchLines : List String),
      twentyFourHours ≤ now - c.lastDNSUpdate →
      nonEmptyTrimmedLines fetchLines ≠ [] →
      ((getNextServer now (FetchResult.ok fetchLines) c).1).dnsServers =
        normalizeServers (nonEmptyTrimmedLines fetchLines)) := by
  constructor
  · intro lines ss s _ hmem hnc
    have hmap := List.mem_map_of_mem
      (fun s : String => if s.data.contains ':' then s else s ++ ":53") hmem
    have hnc2 : ':' ∉ s.data := by simpa using hnc
    simp only [normalizeServers]
    simpa [hnc2] using hmap
  · intro c now fetchLines hstale hne
    have hupd : updateDNSServers now (FetchResult.ok fetchLines) c =
        ({ dnsServers := normalizeServers (nonEmptyTrimmedLines fetchLines)
           serverIndex := 0
           lastDNSUpdate := now }, none, true) := by
      unfold updateDNSServers
      rw [if_neg (by omega)]
      simp only
      rw [if_neg (by simpa [List.length_eq_zero] using hne)]
    simp only [getNextServer, hupd]
    split <;> rfl

/-- C6 witness: a one-entry file list gets port 53 appended, and a stale
pool is overwritten by the fetched remote list. -/
theorem fileServers_normalized_but_refreshed_witness :
    ("9.9.9.9" ++ ":53") ∈ normalizeServers ["9.9.9.9"] ∧
    ((getNextServer twentyFourHours (FetchResult.ok ["8.8.8.8"])
        ⟨["9.9.9.9:53"], 0, 0⟩).1).dnsServers =
      normalizeServers (nonEmptyTrimmedLines ["8.8.8.8"]) :=
  ⟨fileServers_normalized_but_refreshed.1 ["9.9.9.9"] ["9.9.9.9"] "9.9.9.9"
      rfl (by decide) (by decide),
    fileServers_normalized_but_refreshed.2 ⟨["9.9.9.9:53"], 0, 0⟩
      twentyFourHours ["8.8.8.8"] (by decide) (by decide)⟩

/-- C6 counterexample: the pool state `main` builds from the one-line file
`9.9.9.9` (normalised list, staleness clock at startup time 0) is replaced
by the remote default list `8.8.8.8:53` by a single `getNextServer` call 24
hours later — so a file-loaded list is not "never auto-refreshed". -/
theorem fileServers_refresh_counterexample :
    initialConfigFromFile ["9.9.9.9"] 0 = Except.ok ⟨["9.9.9.9:53"], 0, 0⟩ ∧
    ((getNextServer twentyFourHours (FetchResult.ok ["8.8.8.8"])
        ⟨["9.9.9.9:53"], 0, 0⟩).1).dnsServers = ["8.8.8.8:53"] ∧
    (["8.8.8.8:53"] : List String) ≠ ["9.9.9.9:53"] := by
  refine ⟨rfl, by decide, by decide⟩

/-! ### C8: shard-spec parsing -/

/-- C8 (amended).  `"2/4"` is a valid shard spec (index 2 of 4 satisfies
`1 ≤ index ≤ total`) and parses successfully; a spec whose index exceeds its
total, such as `"5/4"`, is the one rejected before the pipeline starts; and
every accepted spec satisfies the `1 ≤ index ≤ total` invariant. -/
theorem parseShardArg_valid_and_range :
    parseShardArg "2/4" = Except.ok (2, 4) ∧
    parseShardArg "5/4" =
      Except.error "shard number must be between 1 and total shards" ∧
    (∀ s n t, parseShardArg s = Except.ok (n, t) → 1 ≤ n ∧ n ≤ t) := by
  refine ⟨rfl, rfl, ?_⟩
  intro s n t h
  unfold parseShardArg at h
  split at h
  · simp only [Except.ok.injEq, Prod.mk.injEq] at h
    omega
  · dsimp only at h
    split at h
    · exact absurd h (by simp)
    · rcases e1 : goAtoi ((goSplit s '/').getD 0 "") with _ | n1
      · rw [e1] at h
        simp at h
      · rcases e2 : goAtoi ((goSplit s '/').getD 1 "") with _ | t1
        · rw [e1, e2] at h
          simp at h
        · rw [e1, e2] at h
          simp only at h
          split at h
          · simp at h
          · rename_i hguard
            simp only [Except.ok.injEq, Prod.mk.injEq] at h
            push_neg at hguard
            omega

/-- C8 witness: an accepted spec such as `"3/7"` lies in range. -/
theorem parseShardArg_valid_and_range_witness :
    (1 : Int) ≤ 3 ∧ (3 : Int) ≤ 7 :=
  parseShardArg_valid_and_range.2.2 "3/7" 3 7 rfl

/-- C8 counterexample: parsing `"2/4"` does not fail — it succeeds with
index 2, total 4, so this configuration is not rejected. -/
theorem parseShardArg_two_of_four_succeeds :
    parseShardArg "2/4" = Except.ok (2, 4) := rfl

/-! ### Lemmas about the worker -/

lemma workerStep_processed (ts ip : String) (resp : DNSResponse)
    (err : Option String) : (workerStep ts ip resp err).1.processed = 1 := by
  unfold workerStep
  split
  · rfl
  · rfl
  · dsimp only
    split
    · rfl
    · rfl

lemma workerStep_success_add_failed (ts ip : String) (resp : DNSResponse)
    (err : Option String) :
    (workerStep ts ip resp err).1.success +
      (workerStep ts ip resp err).1.failed = 1 := by
  unfold workerStep
  split
  · rfl
  · rfl
  · dsimp only
    split
    · rfl
    · rfl

lemma workerStep_records_le_success (ts ip : String) (resp : DNSResponse)
    (err : Option String) :
    (workerStep ts ip resp err).2.toList.length ≤
      (workerStep ts ip resp err).1.success := by
  unfold workerStep
  split
  · simp
  · simp
  · dsimp only
    split
    · simp
    · simp

lemma runWorker_processed (inputs : List WorkerInput) :
    (runWorker inputs).1.processed =
      (runWorker inputs).1.success + (runWorker inputs).1.failed := by
  induction inputs with
  | nil => rfl
  | cons x rest ih =>
    have h1 := workerStep_processed x.ts x.ip x.resp x.err
    have h2 := workerStep_success_add_failed x.ts x.ip x.resp x.err
    simp only [runWorker, StatsDelta.add]
    omega

lemma runWorker_records_le (inputs : List WorkerInput) :
    (runWorker inputs).2.length ≤ (runWorker inputs).1.success := by
  induction inputs with
  | nil => simp [runWorker]
  | cons x rest ih =>
    have h1 := workerStep_records_le_success x.ts x.ip x.resp x.err
    simp only [runWorker, StatsDelta.add, List.length_append]
    omega

lemma firstNonEmptyClean_empty {names : List String}
    (h : ∀ n ∈ names, cleanName n = "") : firstNonEmptyClean names = "" := by
  induction names with
  | nil => rfl
  | cons n rest ih =>
    have hn := h n (by simp)
    simp only [firstNonEmptyClean, hn]
    exact ih (fun m hm => h m (by simp [hm]))

lemma workerStep_success_no_write (ts ip : String) (resp : DNSResponse)
    (hnil : resp.names ≠ []) (hall : ∀ n ∈ resp.names, cleanName n = "") :
    workerStep ts ip resp none = (⟨1, 1, 0, 0⟩, none) := by
  have hb : workerBranch resp none = WorkerBranch.success := by
    simp [workerBranch, List.isEmpty_iff, hnil]
  simp [workerStep, hb, firstNonEmptyClean_empty hall]

/-! ### C4: processed = success + failed -/

/-- C4.  Each address increments `processed` exactly once and exactly one of
`success`/`failed`; summing the per-address atomic deltas over any list of
delivered addresses therefore gives `processed = success + failed` at
pipeline completion. -/
theorem worker_processed_eq_success_add_failed :
    (∀ ts ip resp err, (workerStep ts ip resp err).1.processed = 1 ∧
      (workerStep ts ip resp err).1.success +
        (workerStep ts ip resp err).1.failed = 1) ∧
    ∀ inputs, (runWorker inputs).1.processed =
      (runWorker inputs).1.success + (runWorker inputs).1.failed :=
  ⟨fun ts ip resp err => ⟨workerStep_processed ts ip resp err,
      workerStep_success_add_failed ts ip resp err⟩,
    runWorker_processed⟩

/-! ### C9: non-positive retry budget -/

/-- C9.  With `retries ≤ 0` and a non-empty pool, `lookupWithRetry` runs
zero loop iterations and returns the zero `DNSResponse` with a nil error and
no query; the worker then classifies the address through the
empty-names check (not the error path) and counts it failed. -/
theorem lookupWithRetry_nonpositive_retries (env : LookupEnv)
    (c : ConfigState) (retries : Int)
    (fallback : Except String (List String)) (ts ip : String)
    (hpool : 0 < c.dnsServers.length) (hr : retries ≤ 0) :
    lookupWithRetry env retries c = ⟨DNSResponse.zero, none, c, [], 0⟩ ∧
    workerResolve env retries c fallback = (DNSResponse.zero, none) ∧
    workerBranch DNSResponse.zero none = WorkerBranch.viaEmpty ∧
    (workerStep ts ip DNSResponse.zero none).1.failed = 1 := by
  have htn : retries.toNat = 0 := by omega
  have h1 : lookupWithRetry env retries c =
      ⟨DNSResponse.zero, none, c, [], 0⟩ := by
    rw [lookupWithRetry, htn, lookupLoop_zero]
  refine ⟨h1, ?_, rfl, rfl⟩
  rw [workerResolve.eq_def, if_pos hpool, h1]

/-- C9 witness: a concrete zero-retry run on a one-endpoint pool. -/
theorem lookupWithRetry_nonpositive_retries_witness :
    lookupWithRetry ⟨0, FetchResult.err "offline", Except.ok "a",
        fun _ => ExchangeResult.err "t"⟩ 0 ⟨["1.1.1.1:53"], 0, 0⟩ =
      ⟨DNSResponse.zero, none, ⟨["1.1.1.1:53"], 0, 0⟩, [], 0⟩ ∧
    workerBranch DNSResponse.zero none = WorkerBranch.viaEmpty ∧
    (workerStep "t0" "1.2.3.4" DNSResponse.zero none).1.failed = 1 :=
  have h := lookupWithRetry_nonpositive_retries
    ⟨0, FetchResult.err "offline", Except.ok "a",
      fun _ => ExchangeResult.err "t"⟩ ⟨["1.1.1.1:53"], 0, 0⟩ 0
    (Except.ok []) "t0" "1.2.3.4" (by decide) (by omega)
  ⟨h.1, h.2.2.1, h.2.2.2⟩

/-! ### C10: successful lookups that write nothing -/

/-- C10.  When a successful lookup's names all clean to the empty string the
worker counts a success but hands nothing to the sink; consequently the
records written never exceed the success count, and the concrete run over
the single name `"."` makes the gap strict. -/
theorem worker_success_without_write :
    (∀ inputs, (runWorker inputs).2.length ≤ (runWorker inputs).1.success) ∧
    (∀ ts ip resp, resp.names ≠ [] → (∀ n ∈ resp.names, cleanName n = "") →
      workerStep ts ip resp none = (⟨1, 1, 0, 0⟩, none)) ∧
    runWorker [⟨"t0", "1.2.3.4", { names := ["."], recordType := "PTR" },
      none⟩] = (⟨1, 1, 0, 0⟩, []) ∧
    (runWorker [⟨"t0", "1.2.3.4", { names := ["."], recordType := "PTR" },
      none⟩]).2.length <
      (runWorker [⟨"t0", "1.2.3.4", { names := ["."], recordType := "PTR" },
        none⟩]).1.success :=
  ⟨runWorker_records_le,
    fun ts ip resp hnil hall => workerStep_success_no_write ts ip resp hnil
      hall,
    by decide, by decide⟩

/-- C10 witness: the all-dots response is counted successful and writes no
record. -/
theorem worker_success_without_write_witness :
    workerStep "t0" "1.2.3.4" { names := ["."], recordType := "PTR" } none =
      (⟨1, 1, 0, 0⟩, none) :=
  worker_success_without_write.2.1 "t0" "1.2.3.4"
    { names := ["."], recordType := "PTR" } (by decide) (by decide)

/-! ### C7: output-sink no-op and field presence -/

lemma classifyAnswer_ptr_target {answer : List RR} {server : String}
    {r : DNSResponse} (h : classifyAnswer answer server = some r)
    (hty : r.recordType = "PTR") : r.target = "" := by
  unfold classifyAnswer at h
  split at h
  · dsimp only at h
    split at h
    · split at h
      · injection h with h2
        subst h2
        simp at hty
      · injection h with h2
        subst h2
        rfl
    · exact Option.noConfusion h
  · exact Option.noConfusion h

/-- C7 (amended).  `writeNDJSON` is a no-op (not an error) without a
configured destination; the serialized record always carries a `ttl` key;
the `target` key is present exactly when the target string is non-empty
(`json:"target,omitempty"`) — for worker-produced records a PTR response
always has an empty target and hence omits the key, while a CNAME record
carries it unless its stripped target is empty. -/
theorem writeNDJSON_noop_and_fields :
    (∀ r, writeNDJSON none r = none) ∧
    (∀ r, "ttl" ∈ (recordFields r).map Prod.fst) ∧
    (∀ r, "target" ∈ (recordFields r).map Prod.fst ↔ r.target ≠ "") ∧
    (∀ answer server r, classifyAnswer answer server = some r →
      r.recordType = "PTR" → r.target = "") := by
  refine ⟨fun r => rfl, fun r => ?_, fun r => ?_,
    fun answer server r h hty => classifyAnswer_ptr_target h hty⟩
  · by_cases ht : r.target = "" <;> simp [recordFields, ht]
  · by_cases ht : r.target = "" <;> simp [recordFields, ht]

/-- C7 witness: the no-op write, the always-present `ttl` key and the
empty target of a concrete classified PTR response. -/
theorem writeNDJSON_noop_and_fields_witness :
    writeNDJSON none ⟨"t0", "1.2.3.4", "1.1.1.1", "host.example.com", "PTR",
      "", 60⟩ = none ∧
    "ttl" ∈ (recordFields ⟨"t0", "1.2.3.4", "1.1.1.1", "host.example.com",
      "PTR", "", 60⟩).map Prod.fst ∧
    ("target" ∈ (recordFields ⟨"t0", "1.2.3.4", "1.1.1.1",
      "host.example.com", "PTR", "", 60⟩).map Prod.fst ↔
      ("" : String) ≠ "") ∧
    (⟨["host.example.com."], "1.1.1.1", "PTR", "", 60⟩ :
      DNSResponse).target = "" :=
  ⟨writeNDJSON_noop_and_fields.1 _, writeNDJSON_noop_and_fields.2.1 _,
    writeNDJSON_noop_and_fields.2.2.1 _,
    writeNDJSON_noop_and_fields.2.2.2 [RR.ptrRec "host.example.com." 60]
      "1.1.1.1:53" ⟨["host.example.com."], "1.1.1.1", "PTR", "", 60⟩
      (by decide) (by decide)⟩

/-- C7 counterexample: a CNAME answer whose target is the bare root `"."`
reaches the sink as a `record_type="CNAME"` record with an empty target, and
its serialization omits the `target` key — so "contains `target` exactly
when the record type is CNAME" fails. -/
theorem writeNDJSON_target_field_counterexample :
    classifyAnswer [RR.cnameRec "4.3.2.1.in-addr.arpa." "." 300]
      "1.1.1.1:53" =
      some ⟨["4.3.2.1.in-addr.arpa."], "1.1.1.1", "CNAME", "", 300⟩ ∧
    (workerStep "t0" "1.2.3.4"
        ⟨["4.3.2.1.in-addr.arpa."], "1.1.1.1", "CNAME", "", 300⟩ none).2 =
      some ⟨"t0", "1.2.3.4", "1.1.1.1", "4.3.2.1.in-addr.arpa", "CNAME", "",
        300⟩ ∧
    "target" ∉ (recordFields ⟨"t0", "1.2.3.4", "1.1.1.1",
      "4.3.2.1.in-addr.arpa", "CNAME", "", 300⟩).map Prod.fst := by
  refine ⟨by decide, by decide, by decide⟩

end PtrStream
